import Mathlib

/-!
Verification development for the CottageChooser application (`app.py`).

The four tables of the persistent store are embedded as Lean lists, and
each Flask route handler that the specification's claims touch is embedded
as a pure function from the database (plus the session identity and the
admin configuration) to a result value and an updated database.  SQLite
statements become the corresponding list operations; `session.get(...)`
becomes an `Option String` argument; Python truthiness on the session
value is made explicit.
-/

namespace CottageChooser

/-- Row of the `cottages` table.  Only the columns the specified behaviour
reads or writes are kept (`id`, `submitted_by`, the denormalized `votes`
counter) together with representative content columns (`name`,
`description`); the remaining descriptive columns (location, price, beds,
amenity flags, ...) are carried by no claim and are elided. -/
structure Cottage where
  id : Nat
  name : String
  description : String
  submitted_by : String
  votes : Int
deriving DecidableEq

/-- Row of the `comments` table. -/
structure Comment where
  id : Nat
  cottage_id : Nat
  author : String
  text : String
deriving DecidableEq

/-- Row of the `votes` table. -/
structure Vote where
  id : Nat
  cottage_id : Nat
  user_name : String
  voted_at : String
deriving DecidableEq

/-- Row of the `ratings` table (composite key `(cottage_id, user_name)`). -/
structure Rating where
  cottage_id : Nat
  user_name : String
  rating : Int
  rated_at : String
deriving DecidableEq

/-- The whole persistent store.  The `next...Id` counters model the
store-generated integer primary keys: `schema.sql` is not among the
sources, so id generation is modelled from the spec ("id (unique,
generated)") as successive fresh integers, the way SQLite assigns
monotonically increasing rowids. -/
structure DB where
  cottages : List Cottage
  comments : List Comment
  votes : List Vote
  ratings : List Rating
  nextCottageId : Nat
  nextCommentId : Nat
  nextVoteId : Nat
deriving DecidableEq

/-- The empty database produced by `init_db`. -/
def initDB : DB := ⟨[], [], [], [], 1, 1, 1⟩

/-- Admin configuration read at startup:
`ALLOW_ADMIN_OVERRIDE` (env `CC_ALLOW_ADMIN_OVERRIDE`),
`ADMIN_USERS` (env `CC_ADMIN_USERS`, comma-split and stripped), and the
separate runtime list env `CC_ADMINS` used by `get_admins`. -/
structure Config where
  allowAdminOverride : Bool
  adminUsers : List String
  envAdmins : List String

/-- Python truthiness of `session.get('user_name')`: `None` and the empty
string are falsy. -/
def truthy : Option String → Bool
  | none => false
  | some s => s ≠ ""

/-- `session.get('user_name', 'Guest')`. -/
def sessionUserOrGuest (sess : Option String) : String :=
  sess.getD "Guest"

/-- Python `str.strip()`: drop whitespace from both ends (modelled on the
underlying character list so that it evaluates inside the kernel). -/
def pystrip (s : String) : String :=
  ⟨((s.data.dropWhile (fun c => c.isWhitespace)).reverse.dropWhile
      (fun c => c.isWhitespace)).reverse⟩

/-- Python `str.casefold()`, modelled as ASCII lowercasing. -/
def pylower (s : String) : String :=
  ⟨s.data.map Char.toLower⟩

/-- The helper `_norm(name) = (name or "").strip().casefold()` applied to a
plain string. -/
def pynormS (s : String) : String :=
  pylower (pystrip s)

/-- The helper `_norm` applied to a possibly absent session value
(`name or ""` maps `None` to the empty string). -/
def pynorm (s : Option String) : String :=
  pynormS (s.getD "")

/-- The helper `get_admins()`: the `CC_ADMINS` entries with non-blank
strip, normalized, together with the normalized `ADMIN_USERS` config list
(Python builds a `set`; only membership is ever used, so a list suffices). -/
def get_admins (cfg : Config) : List String :=
  (cfg.envAdmins.filter (fun u => pystrip u ≠ "")).map pynormS
    ++ cfg.adminUsers.map pynormS

/-- The helper `is_admin()`: normalized session name in `get_admins()`. -/
def is_admin (cfg : Config) (sess : Option String) : Bool :=
  pynorm sess ∈ get_admins cfg

/-- The inline admin check duplicated in `delete_cottage` and
`delete_comment`: `ALLOW_ADMIN_OVERRIDE and current_user in ADMIN_USERS`
(exact, case-sensitive membership in the static list only). -/
def admin_override (cfg : Config) (current_user : String) : Bool :=
  cfg.allowAdminOverride && current_user ∈ cfg.adminUsers

/-- `UPDATE cottages SET votes = votes + 1 WHERE id = ?`. -/
def updateVotesPlus1 (cs : List Cottage) (cid : Nat) : List Cottage :=
  cs.map fun c => if c.id = cid then { c with votes := c.votes + 1 } else c

/-- `UPDATE cottages SET votes = CASE WHEN votes > 0 THEN votes - 1 ELSE 0
END WHERE id = ?`. -/
def updateVotesFloorDec (cs : List Cottage) (cid : Nat) : List Cottage :=
  cs.map fun c =>
    if c.id = cid then { c with votes := if c.votes > 0 then c.votes - 1 else 0 } else c

/-- Outcomes of the `vote` route.  `server_error` is the unhandled
`TypeError` raised when `row['votes']` subscripts the `None` returned for
a nonexistent cottage id (the route has no explicit not-found branch). -/
inductive VoteResult where
  | not_logged_in
  | already_voted (votes : Int)
  | already_voted_elsewhere (cottage_id : Nat) (vote_id : Nat)
  | ok (votes : Int)
  | server_error
deriving DecidableEq

/-- The `vote` route (`POST /vote/<cottage_id>`): requires a logged-in
user; rejects when the user already holds a vote (same target or
elsewhere); otherwise increments the target cottage counter, inserts the
Vote row and commits, then re-reads the counter.  There is no check that
`cottage_id` exists: in that case the `UPDATE` matches no row, the insert
commits a dangling Vote row, and the final counter read fails
(`server_error`).  The `sqlite3.IntegrityError` branch for the
`UNIQUE(user_name)` constraint can only fire under concurrency and is
unreachable in this sequential embedding. -/
def vote (db : DB) (sess : Option String) (cottage_id : Nat) (now : String) :
    VoteResult × DB :=
  if truthy sess = false then (.not_logged_in, db)
  else
    let current_user := sess.getD ""
    match db.votes.find? (fun v => v.user_name = current_user) with
    | some existing =>
      if existing.cottage_id = cottage_id then
        match db.cottages.find? (fun c => c.id = cottage_id) with
        | some row => (.already_voted row.votes, db)
        | none => (.server_error, db)
      else
        (.already_voted_elsewhere existing.cottage_id existing.id, db)
    | none =>
      let cottages1 := updateVotesPlus1 db.cottages cottage_id
      let db1 : DB :=
        { db with
          cottages := cottages1
          votes := db.votes ++ [⟨db.nextVoteId, cottage_id, current_user, now⟩]
          nextVoteId := db.nextVoteId + 1 }
      match cottages1.find? (fun c => c.id = cottage_id) with
      | some row => (.ok row.votes, db1)
      | none => (.server_error, db1)

/-- Outcomes of the `delete_vote` route. -/
inductive DeleteVoteResult where
  | not_logged_in
  | vote_not_found
  | not_permitted
  | ok (cottage_id : Nat) (vote_id : Nat)
deriving DecidableEq

/-- The `delete_vote` route (`POST /vote/delete/<vote_id>`): requires a
logged-in user; 404 when the vote id is absent; permitted when the
normalized requester name equals the normalized vote owner name or
`is_admin()`; on success the owning cottage counter is decremented floored
at zero and the Vote row is deleted. -/
def delete_vote (cfg : Config) (db : DB) (sess : Option String) (vote_id : Nat) :
    DeleteVoteResult × DB :=
  if truthy sess = false then (.not_logged_in, db)
  else
    match db.votes.find? (fun v => v.id = vote_id) with
    | none => (.vote_not_found, db)
    | some row =>
      if pynormS row.user_name ≠ pynorm sess ∧ is_admin cfg sess = false then
        (.not_permitted, db)
      else
        (.ok row.cottage_id vote_id,
         { db with
           cottages := updateVotesFloorDec db.cottages row.cottage_id
           votes := db.votes.filter (fun v => v.id ≠ vote_id) })

/-- Outcomes of the `delete_cottage` route. -/
inductive DeleteCottageResult where
  | cottage_not_found
  | not_authorized
  | deleted
deriving DecidableEq

/-- The `delete_cottage` route (`POST /delete/<cottage_id>`): only the
submitter (with `Guest` default for an absent session) or an inline
admin-override match may delete; on success the cottage's comments and
votes are deleted first, then the cottage row.  The `ratings` table is not
touched. -/
def delete_cottage (cfg : Config) (db : DB) (sess : Option String) (cottage_id : Nat) :
    DeleteCottageResult × DB :=
  match db.cottages.find? (fun c => c.id = cottage_id) with
  | none => (.cottage_not_found, db)
  | some row =>
    let current_user := sessionUserOrGuest sess
    if row.submitted_by ≠ current_user ∧ admin_override cfg current_user = false then
      (.not_authorized, db)
    else
      (.deleted,
       { db with
         comments := db.comments.filter (fun cm => cm.cottage_id ≠ cottage_id)
         votes := db.votes.filter (fun v => v.cottage_id ≠ cottage_id)
         cottages := db.cottages.filter (fun c => c.id ≠ cottage_id) })

/-- Outcomes of the `edit_cottage` route. -/
inductive EditCottageResult where
  | cottage_not_found
  | not_authorized
  | updated
deriving DecidableEq

/-- The `edit_cottage` route (`/edit/<cottage_id>`, POST branch): only the
exact submitter (with `Guest` default) may edit — no admin override.  The
description argument stands for the already-sanitized text
(`sanitize_html` is the external collaborator).  The `votes` counter and
`submitted_by` are not among the updated columns. -/
def edit_cottage (db : DB) (sess : Option String) (cottage_id : Nat)
    (name description : String) : EditCottageResult × DB :=
  match db.cottages.find? (fun c => c.id = cottage_id) with
  | none => (.cottage_not_found, db)
  | some row =>
    let current_user := sessionUserOrGuest sess
    if row.submitted_by ≠ current_user then (.not_authorized, db)
    else
      (.updated,
       { db with
         cottages := db.cottages.map fun c =>
           if c.id = cottage_id then { c with name := name, description := description }
           else c })

/-- The `add_cottage` route (`POST /add`): inserts unconditionally (no
authentication gate), recording `submitted_by = session.get('user_name',
'Guest')`.  The new row's `votes` counter starts at 0 (the schema default;
`schema.sql` is not among the sources — modelled from the spec's
denormalized-counter description). -/
def add_cottage (db : DB) (sess : Option String) (name description : String) : DB :=
  { db with
    cottages :=
      db.cottages ++ [⟨db.nextCottageId, name, description, sessionUserOrGuest sess, 0⟩]
    nextCottageId := db.nextCottageId + 1 }

/-- Comment creation (`POST /cottage/<cottage_id>` in `cottage_detail`):
no authentication gate; the author defaults to `Guest`; the stripped text
is inserted only when non-blank. -/
def add_comment (db : DB) (sess : Option String) (cottage_id : Nat) (text : String) : DB :=
  if pystrip text = "" then db
  else
    { db with
      comments :=
        db.comments
          ++ [⟨db.nextCommentId, cottage_id, sessionUserOrGuest sess, pystrip text⟩]
      nextCommentId := db.nextCommentId + 1 }

/-- Outcomes of the comment edit/delete routes. -/
inductive CommentResult where
  | comment_not_found
  | not_authorized
  | done
deriving DecidableEq

/-- The `edit_comment` route: only the exact original author (with `Guest`
default) may edit — no admin override; a blank text leaves the row
unchanged. -/
def edit_comment (db : DB) (sess : Option String) (comment_id : Nat) (text : String) :
    CommentResult × DB :=
  match db.comments.find? (fun cm => cm.id = comment_id) with
  | none => (.comment_not_found, db)
  | some row =>
    let current_user := sessionUserOrGuest sess
    if row.author ≠ current_user then (.not_authorized, db)
    else if pystrip text = "" then (.done, db)
    else
      (.done,
       { db with
         comments := db.comments.map fun cm =>
           if cm.id = comment_id then { cm with text := pystrip text } else cm })

/-- The `delete_comment` route: the exact author or an inline
admin-override match may delete. -/
def delete_comment (cfg : Config) (db : DB) (sess : Option String) (comment_id : Nat) :
    CommentResult × DB :=
  match db.comments.find? (fun cm => cm.id = comment_id) with
  | none => (.comment_not_found, db)
  | some row =>
    let current_user := sessionUserOrGuest sess
    if row.author ≠ current_user ∧ admin_override cfg current_user = false then
      (.not_authorized, db)
    else
      (.done, { db with comments := db.comments.filter (fun cm => cm.id ≠ comment_id) })

/-- `SELECT COUNT(*) FROM ratings WHERE cottage_id = ?`. -/
def ratingCount (rs : List Rating) (cid : Nat) : Nat :=
  (rs.filter (fun r => r.cottage_id = cid)).length

/-- `SELECT SUM(rating) ... ` with `stats['total'] or 0` (`SUM` of no rows
is `NULL`, which the `or 0` maps to 0 — as does summing the empty list). -/
def ratingSum (rs : List Rating) (cid : Nat) : Int :=
  ((rs.filter (fun r => r.cottage_id = cid)).map (fun r => r.rating)).sum

/-- `AVG(rating)` over the cottage's ratings: `NULL` (here `none`) when
there are no rows, else the exact mean as a rational. -/
def ratingAvgRaw (rs : List Rating) (cid : Nat) : Option ℚ :=
  if ratingCount rs cid = 0 then none
  else some ((ratingSum rs cid : ℚ) / (ratingCount rs cid : ℚ))

/-- Round-half-to-even to an integer, the behaviour of Python `round`. -/
def roundHalfEven (q : ℚ) : ℤ :=
  if q - ⌊q⌋ < 1 / 2 then ⌊q⌋
  else if 1 / 2 < q - ⌊q⌋ then ⌊q⌋ + 1
  else if ⌊q⌋ % 2 = 0 then ⌊q⌋ else ⌊q⌋ + 1

/-- Python `round(x, 1)`. -/
def pyRound1 (q : ℚ) : ℚ :=
  (roundHalfEven (q * 10) : ℚ) / 10

/-- The reported average: `round(stats['avg'], 1) if stats['avg'] else 0`
(both `NULL` and an exact average of 0 are falsy and report 0). -/
def ratingAvgStat (rs : List Rating) (cid : Nat) : ℚ :=
  match ratingAvgRaw rs cid with
  | none => 0
  | some a => if a = 0 then 0 else pyRound1 a

/-- The `INSERT ... ON CONFLICT(cottage_id, user_name) DO UPDATE SET
rating=excluded.rating, rated_at=excluded.rated_at` statement of
`rate_cottage`, against the `UNIQUE(cottage_id, user_name)` index the
conflict target names: overwrite in place when the pair exists, insert
otherwise. -/
def upsertRating (rs : List Rating) (cid : Nat) (user : String) (rating : Int)
    (now : String) : List Rating :=
  if rs.any (fun r => r.cottage_id = cid ∧ r.user_name = user) then
    rs.map fun r =>
      if r.cottage_id = cid ∧ r.user_name = user then
        { r with rating := rating, rated_at := now }
      else r
  else rs ++ [⟨cid, user, rating, now⟩]

/-- Outcomes of the `rate_cottage` route. -/
inductive RateResult where
  | not_logged_in
  | invalid_range
  | cottage_not_found
  | ok (rating : Int) (count : Nat) (average : ℚ) (total : Int)
deriving DecidableEq

/-- The `rate_cottage` route (`POST /rate/<cottage_id>`): requires a
logged-in user; the form value is parsed with `int(...)` (`none` models a
`ValueError`, i.e. a non-integer) and must lie in 0..10; the cottage must
exist; then the rating is upserted, committed, and the refreshed aggregate
(count, rounded average, sum) is returned. -/
def rate_cottage (db : DB) (sess : Option String) (cottage_id : Nat)
    (ratingInput : Option Int) (now : String) : RateResult × DB :=
  if truthy sess = false then (.not_logged_in, db)
  else
    match ratingInput with
    | none => (.invalid_range, db)
    | some rating =>
      if rating < 0 ∨ 10 < rating then (.invalid_range, db)
      else
        let current_user := sess.getD ""
        match db.cottages.find? (fun c => c.id = cottage_id) with
        | none => (.cottage_not_found, db)
        | some _ =>
          let ratings1 := upsertRating db.ratings cottage_id current_user rating now
          (.ok rating (ratingCount ratings1 cottage_id)
             (ratingAvgStat ratings1 cottage_id) (ratingSum ratings1 cottage_id),
           { db with ratings := ratings1 })

/-- Outcomes of the `delete_rating` route. -/
inductive DeleteRatingResult where
  | not_logged_in
  | rating_not_found
  | ok (count : Nat) (average : ℚ) (total : Int)
deriving DecidableEq

/-- The `delete_rating` route (`POST /rating/delete/<cottage_id>`):
requires a logged-in user; deletes the requester's rating row for the
cottage and commits, then reports 404 when no row was deleted (the delete
of nothing leaves the table unchanged), else returns the refreshed
aggregate. -/
def delete_rating (db : DB) (sess : Option String) (cottage_id : Nat) :
    DeleteRatingResult × DB :=
  if truthy sess = false then (.not_logged_in, db)
  else
    let current_user := sess.getD ""
    let hit := fun r : Rating => r.cottage_id = cottage_id ∧ r.user_name = current_user
    let deleted := (db.ratings.filter (fun r => hit r)).length
    let ratings1 := db.ratings.filter (fun r => ¬ hit r)
    let db1 := { db with ratings := ratings1 }
    if deleted = 0 then (.rating_not_found, db1)
    else
      (.ok (ratingCount ratings1 cottage_id) (ratingAvgStat ratings1 cottage_id)
         (ratingSum ratings1 cottage_id), db1)

/-- One committed mutation of the store: an application of one of the
mutating route handlers, at arbitrary request data. -/
inductive Step (cfg : Config) : DB → DB → Prop where
  | addCottage (db : DB) (sess : Option String) (name description : String) :
      Step cfg db (add_cottage db sess name description)
  | editCottage (db : DB) (sess : Option String) (cid : Nat) (name description : String) :
      Step cfg db (edit_cottage db sess cid name description).2
  | deleteCottage (db : DB) (sess : Option String) (cid : Nat) :
      Step cfg db (delete_cottage cfg db sess cid).2
  | addComment (db : DB) (sess : Option String) (cid : Nat) (text : String) :
      Step cfg db (add_comment db sess cid text)
  | editComment (db : DB) (sess : Option String) (comment_id : Nat) (text : String) :
      Step cfg db (edit_comment db sess comment_id text).2
  | deleteComment (db : DB) (sess : Option String) (comment_id : Nat) :
      Step cfg db (delete_comment cfg db sess comment_id).2
  | voteCast (db : DB) (sess : Option String) (cid : Nat) (now : String) :
      Step cfg db (vote db sess cid now).2
  | voteDelete (db : DB) (sess : Option String) (vote_id : Nat) :
      Step cfg db (delete_vote cfg db sess vote_id).2
  | rateCast (db : DB) (sess : Option String) (cid : Nat) (r : Option Int) (now : String) :
      Step cfg db (rate_cottage db sess cid r now).2
  | rateDelete (db : DB) (sess : Option String) (cid : Nat) :
      Step cfg db (delete_rating db sess cid).2

/-- States reachable from the freshly initialized database by committed
mutations. -/
def Reachable (cfg : Config) (db : DB) : Prop :=
  Relation.ReflTransGen (Step cfg) initDB db

/-- At most one Vote row per user across the whole table. -/
def oneVotePerUser (db : DB) : Prop :=
  ∀ u : String, (db.votes.filter (fun v => v.user_name = u)).length ≤ 1

/-- At most one Rating row per `(cottage_id, user_name)` pair. -/
def oneRatingPerPair (db : DB) : Prop :=
  ∀ (cid : Nat) (u : String),
    (db.ratings.filter (fun r => r.cottage_id = cid ∧ r.user_name = u)).length ≤ 1

/-- Number of Vote rows referencing a given cottage id. -/
def voteRowCount (db : DB) (cid : Nat) : Nat :=
  (db.votes.filter (fun v => v.cottage_id = cid)).length

/-- The counter-sync property: every existing cottage's denormalized
counter equals its Vote row count. -/
def counterSync (db : DB) : Prop :=
  ∀ c ∈ db.cottages, c.votes = (voteRowCount db c.id : Int)

/-- No cottage's denormalized counter is negative. -/
def countersNonneg (db : DB) : Prop :=
  ∀ c ∈ db.cottages, 0 ≤ c.votes

/-! Helper lemmas about filtered lists. -/

theorem length_filter_filter_le {α : Type} (l : List α) (p q : α → Bool) :
    ((l.filter p).filter q).length ≤ (l.filter q).length :=
  ((l.filter_sublist).filter q).length_le

theorem filter_eq_nil_of_find?_eq_none {α : Type} {l : List α} {p : α → Bool}
    (h : l.find? p = none) : l.filter p = [] := by
  rw [List.filter_eq_nil_iff]
  intro a ha
  exact List.find?_eq_none.mp h a ha

theorem filter_eq_nil_of_any_eq_false {α : Type} {l : List α} {p : α → Bool}
    (h : l.any p = false) : l.filter p = [] := by
  rw [List.filter_eq_nil_iff]
  intro a ha
  simpa using (List.any_eq_false.mp h) a ha

/-! How each route handler acts on the `votes` table. -/

theorem add_cottage_votes (db : DB) (sess : Option String) (nm ds : String) :
    (add_cottage db sess nm ds).votes = db.votes := rfl

theorem edit_cottage_votes (db : DB) (sess : Option String) (cid : Nat) (nm ds : String) :
    (edit_cottage db sess cid nm ds).2.votes = db.votes := by
  simp only [edit_cottage]
  split
  · rfl
  · split
    · rfl
    · rfl

theorem add_comment_votes (db : DB) (sess : Option String) (cid : Nat) (t : String) :
    (add_comment db sess cid t).votes = db.votes := by
  simp only [add_comment]
  split
  · rfl
  · rfl

theorem edit_comment_votes (db : DB) (sess : Option String) (comment_id : Nat) (t : String) :
    (edit_comment db sess comment_id t).2.votes = db.votes := by
  simp only [edit_comment]
  split
  · rfl
  · split
    · rfl
    · split
      · rfl
      · rfl

theorem delete_comment_votes (cfg : Config) (db : DB) (sess : Option String)
    (comment_id : Nat) : (delete_comment cfg db sess comment_id).2.votes = db.votes := by
  simp only [delete_comment]
  split
  · rfl
  · split
    · rfl
    · rfl

theorem rate_cottage_votes (db : DB) (sess : Option String) (cid : Nat)
    (r : Option Int) (now : String) : (rate_cottage db sess cid r now).2.votes = db.votes := by
  simp only [rate_cottage]
  split
  · rfl
  · split
    · rfl
    · split
      · rfl
      · split
        · rfl
        · rfl

theorem delete_rating_votes (db : DB) (sess : Option String) (cid : Nat) :
    (delete_rating db sess cid).2.votes = db.votes := by
  simp only [delete_rating]
  split
  · rfl
  · split
    · rfl
    · rfl

theorem delete_cottage_votes (cfg : Config) (db : DB) (sess : Option String) (cid : Nat) :
    (delete_cottage cfg db sess cid).2.votes = db.votes ∨
    (delete_cottage cfg db sess cid).2.votes
      = db.votes.filter (fun v => v.cottage_id ≠ cid) := by
  simp only [delete_cottage]
  split
  · exact Or.inl rfl
  · split
    · exact Or.inl rfl
    · exact Or.inr rfl

theorem delete_vote_votes (cfg : Config) (db : DB) (sess : Option String) (vote_id : Nat) :
    (delete_vote cfg db sess vote_id).2.votes = db.votes ∨
    (delete_vote cfg db sess vote_id).2.votes
      = db.votes.filter (fun v => v.id ≠ vote_id) := by
  simp only [delete_vote]
  split
  · exact Or.inl rfl
  · split
    · exact Or.inl rfl
    · split
      · exact Or.inl rfl
      · exact Or.inr rfl

theorem vote_votes (db : DB) (sess : Option String) (cid : Nat) (now : String) :
    (vote db sess cid now).2.votes = db.votes ∨
    (db.votes.find? (fun v => v.user_name = sess.getD "") = none ∧
     (vote db sess cid now).2.votes
       = db.votes ++ [⟨db.nextVoteId, cid, sess.getD "", now⟩]) := by
  simp only [vote]
  split
  · exact Or.inl rfl
  · split
    next existing heq =>
      split
      · split
        · exact Or.inl rfl
        · exact Or.inl rfl
      · exact Or.inl rfl
    next heq =>
      split
      · exact Or.inr ⟨heq, rfl⟩
      · exact Or.inr ⟨heq, rfl⟩

/-! Preservation of the one-vote-per-user invariant. -/

theorem oneVotePerUser_of_votes_eq {db db' : DB} (h : db'.votes = db.votes)
    (hv : oneVotePerUser db) : oneVotePerUser db' := by
  intro u
  rw [h]
  exact hv u

theorem oneVotePerUser_of_votes_filter {db db' : DB} {p : Vote → Bool}
    (h : db'.votes = db.votes.filter p) (hv : oneVotePerUser db) : oneVotePerUser db' := by
  intro u
  rw [h]
  exact le_trans (length_filter_filter_le db.votes p _) (hv u)

theorem step_preserves_oneVotePerUser {cfg : Config} {db db' : DB} (h : Step cfg db db')
    (hv : oneVotePerUser db) : oneVotePerUser db' := by
  cases h with
  | addCottage sess nm ds =>
    exact oneVotePerUser_of_votes_eq (add_cottage_votes db sess nm ds) hv
  | editCottage sess cid nm ds =>
    exact oneVotePerUser_of_votes_eq (edit_cottage_votes db sess cid nm ds) hv
  | deleteCottage sess cid =>
    rcases delete_cottage_votes cfg db sess cid with hvv | hvv
    · exact oneVotePerUser_of_votes_eq hvv hv
    · exact oneVotePerUser_of_votes_filter hvv hv
  | addComment sess cid t =>
    exact oneVotePerUser_of_votes_eq (add_comment_votes db sess cid t) hv
  | editComment sess comment_id t =>
    exact oneVotePerUser_of_votes_eq (edit_comment_votes db sess comment_id t) hv
  | deleteComment sess comment_id =>
    exact oneVotePerUser_of_votes_eq (delete_comment_votes cfg db sess comment_id) hv
  | voteCast sess cid now =>
    rcases vote_votes db sess cid now with hvv | ⟨hnone, hvv⟩
    · exact oneVotePerUser_of_votes_eq hvv hv
    · intro u
      rw [hvv, List.filter_append, List.length_append]
      by_cases hu : u = sess.getD ""
      · subst hu
        rw [filter_eq_nil_of_find?_eq_none hnone]
        simp [List.filter]
      · have hne : ¬ (sess.getD "" = u) := fun hh => hu hh.symm
        have hnil : ([(⟨db.nextVoteId, cid, sess.getD "", now⟩ : Vote)].filter
            (fun v => v.user_name = u)) = [] := by
          simp [List.filter, hne]
        rw [hnil]
        simpa using hv u
  | voteDelete sess vote_id =>
    rcases delete_vote_votes cfg db sess vote_id with hvv | hvv
    · exact oneVotePerUser_of_votes_eq hvv hv
    · exact oneVotePerUser_of_votes_filter hvv hv
  | rateCast sess cid r now =>
    exact oneVotePerUser_of_votes_eq (rate_cottage_votes db sess cid r now) hv
  | rateDelete sess cid =>
    exact oneVotePerUser_of_votes_eq (delete_rating_votes db sess cid) hv

theorem reachable_oneVotePerUser {cfg : Config} {db : DB} (h : Reachable cfg db) :
    oneVotePerUser db := by
  induction h with
  | refl => intro u; simp [initDB]
  | tail hsteps hstep ih => exact step_preserves_oneVotePerUser hstep ih

/-- C1: in every reachable state there is at most one Vote row per
`user_name` across the entire votes table, and the `vote` route inserts a
Vote row only when the session user currently holds no vote for any
cottage (whenever the votes table changes at all, the user had no prior
Vote row and exactly the one new row was appended). -/
theorem one_vote_per_user_invariant :
    (∀ (cfg : Config) (db : DB), Reachable cfg db → oneVotePerUser db) ∧
    (∀ (db : DB) (sess : Option String) (cid : Nat) (now : String),
      (vote db sess cid now).2.votes ≠ db.votes →
        db.votes.filter (fun v => v.user_name = sess.getD "") = [] ∧
        (vote db sess cid now).2.votes
          = db.votes ++ [⟨db.nextVoteId, cid, sess.getD "", now⟩]) := by
  constructor
  · intro cfg db h
    exact reachable_oneVotePerUser h
  · intro db sess cid now hne
    rcases vote_votes db sess cid now with hvv | ⟨hnone, hvv⟩
    · exact absurd hvv hne
    · exact ⟨filter_eq_nil_of_find?_eq_none hnone, hvv⟩

/-- Witness for C1 at concrete inputs: the initial database satisfies the
invariant, and a first vote by user `ann` appends exactly one row. -/
theorem one_vote_per_user_invariant_witness :
    oneVotePerUser initDB ∧
    (vote initDB (some "ann") 1 "2026-01-01 09:00:00").2.votes
      = initDB.votes ++ [⟨1, 1, "ann", "2026-01-01 09:00:00"⟩] :=
  ⟨one_vote_per_user_invariant.1 ⟨false, [], []⟩ initDB Relation.ReflTransGen.refl,
   (one_vote_per_user_invariant.2 initDB (some "ann") 1 "2026-01-01 09:00:00"
     (by decide)).2⟩

/-- C10: cottage deletion is a frame for the ratings table — the
`delete_cottage` route leaves `ratings` unchanged in every case (found or
not, authorized or not, deleted or not), so Rating rows referencing the
deleted cottage persist. -/
theorem cottage_delete_preserves_ratings :
    ∀ (cfg : Config) (db : DB) (sess : Option String) (cid : Nat),
      (delete_cottage cfg db sess cid).2.ratings = db.ratings := by
  intro cfg db sess cid
  simp only [delete_cottage]
  split
  · rfl
  · split
    · rfl
    · rfl

/-- C8: a successful cottage deletion removes exactly the Comment rows and
Vote rows whose `cottage_id` is the deleted id together with the cottage
row itself, leaving no comment, vote or cottage row referencing that id. -/
theorem cottage_delete_cascade :
    ∀ (cfg : Config) (db : DB) (sess : Option String) (cid : Nat),
      (delete_cottage cfg db sess cid).1 = DeleteCottageResult.deleted →
        (delete_cottage cfg db sess cid).2.comments
            = db.comments.filter (fun cm => cm.cottage_id ≠ cid) ∧
        (delete_cottage cfg db sess cid).2.votes
            = db.votes.filter (fun v => v.cottage_id ≠ cid) ∧
        (delete_cottage cfg db sess cid).2.cottages
            = db.cottages.filter (fun c => c.id ≠ cid) ∧
        (∀ cm ∈ (delete_cottage cfg db sess cid).2.comments, cm.cottage_id ≠ cid) ∧
        (∀ v ∈ (delete_cottage cfg db sess cid).2.votes, v.cottage_id ≠ cid) ∧
        (∀ c ∈ (delete_cottage cfg db sess cid).2.cottages, c.id ≠ cid) := by
  intro cfg db sess cid
  simp only [delete_cottage]
  split
  · intro h
    exact absurd h (by simp)
  · split
    · intro h
      exact absurd h (by simp)
    · intro _
      refine ⟨rfl, rfl, rfl, ?_, ?_, ?_⟩
      · intro cm hcm
        simpa using (List.of_mem_filter hcm)
      · intro v hv
        simpa using (List.of_mem_filter hv)
      · intro c hc
        simpa using (List.of_mem_filter hc)

/-- A concrete store with one cottage owned by `ann`, a second cottage,
two comments and three votes on cottage 1 (used by the C8 witness). -/
def cascadeDB : DB :=
  ⟨[⟨1, "Cottage One", "d", "ann", 3⟩, ⟨2, "Cottage Two", "d", "bob", 0⟩],
   [⟨1, 1, "bob", "nice"⟩, ⟨2, 1, "cal", "ok"⟩],
   [⟨1, 1, "ann", "t1"⟩, ⟨2, 1, "bob", "t2"⟩, ⟨3, 1, "cal", "t3"⟩],
   [], 3, 3, 4⟩

/-- Witness for C8: the owner deletes cottage 1 of `cascadeDB`; its two
comments and three votes disappear with the cottage row, and no row
referencing cottage 1 remains. -/
theorem cottage_delete_cascade_witness :
    (delete_cottage ⟨false, [], []⟩ cascadeDB (some "ann") 1).2.comments
        = cascadeDB.comments.filter (fun cm => cm.cottage_id ≠ 1) ∧
    (delete_cottage ⟨false, [], []⟩ cascadeDB (some "ann") 1).2.votes
        = cascadeDB.votes.filter (fun v => v.cottage_id ≠ 1) ∧
    (delete_cottage ⟨false, [], []⟩ cascadeDB (some "ann") 1).2.cottages
        = cascadeDB.cottages.filter (fun c => c.id ≠ 1) ∧
    (∀ cm ∈ (delete_cottage ⟨false, [], []⟩ cascadeDB (some "ann") 1).2.comments,
      cm.cottage_id ≠ 1) ∧
    (∀ v ∈ (delete_cottage ⟨false, [], []⟩ cascadeDB (some "ann") 1).2.votes,
      v.cottage_id ≠ 1) ∧
    (∀ c ∈ (delete_cottage ⟨false, [], []⟩ cascadeDB (some "ann") 1).2.cottages,
      c.id ≠ 1) :=
  cottage_delete_cascade ⟨false, [], []⟩ cascadeDB (some "ann") 1 (by decide)

/-- C9: with no session identity, cottage creation and comment creation do
not fail — they record the owner/author as the literal string `Guest` —
and the edit/delete ownership checks compare against the same `Guest`
default, so an unauthenticated visitor passes the owner check for a
cottage whose `submitted_by` is `Guest`. -/
theorem guest_default_identity :
    ∀ (db : DB) (nm ds txt : String) (cid : Nat) (cfg : Config),
      ((add_cottage db none nm ds).cottages
          = db.cottages ++ [⟨db.nextCottageId, nm, ds, "Guest", 0⟩]) ∧
      (pystrip txt ≠ "" →
        (add_comment db none cid txt).comments
          = db.comments ++ [⟨db.nextCommentId, cid, "Guest", pystrip txt⟩]) ∧
      (∀ c : Cottage, db.cottages.find? (fun x => x.id = cid) = some c →
        c.submitted_by = "Guest" →
          (edit_cottage db none cid nm ds).1 ≠ EditCottageResult.not_authorized ∧
          (delete_cottage cfg db none cid).1 = DeleteCottageResult.deleted) := by
  intro db nm ds txt cid cfg
  refine ⟨rfl, ?_, ?_⟩
  · intro ht
    simp only [add_comment]
    split
    · next hblank => exact absurd hblank ht
    · rfl
  · intro c hc hguest
    constructor
    · simp only [edit_cottage, hc]
      split
      · next hne => exact absurd hguest (by simpa [sessionUserOrGuest] using hne)
      · simp
    · simp only [delete_cottage, hc]
      split
      · next hne =>
        exact absurd hguest (by simpa [sessionUserOrGuest] using hne.1)
      · rfl

/-- A store holding one cottage submitted with no session identity, hence
owned by `Guest` (used by the C9 witness). -/
def guestDB : DB := add_cottage initDB none "Seaside" "d"

/-- Witness for C9: an unauthenticated visitor creates a cottage (owner
recorded as `Guest`), posts a comment (author `Guest`), and then passes
the owner checks to edit and delete the `Guest`-owned cottage. -/
theorem guest_default_identity_witness :
    ((add_cottage initDB none "Seaside" "d").cottages
        = initDB.cottages ++ [⟨1, "Seaside", "d", "Guest", 0⟩]) ∧
    ((add_comment guestDB none 1 " hello ").comments
        = guestDB.comments ++ [⟨1, 1, "Guest", "hello"⟩]) ∧
    ((edit_cottage guestDB none 1 "Seaside" "d2").1
        ≠ EditCottageResult.not_authorized) ∧
    ((delete_cottage ⟨false, [], []⟩ guestDB none 1).1 = DeleteCottageResult.deleted) :=
  ⟨(guest_default_identity initDB "Seaside" "d" " hello " 1 ⟨false, [], []⟩).1,
   (guest_default_identity guestDB "Seaside" "d" " hello " 1 ⟨false, [], []⟩).2.1
     (by decide),
   ((guest_default_identity guestDB "Seaside" "d2" " hello " 1 ⟨false, [], []⟩).2.2
     ⟨1, "Seaside", "d", "Guest", 0⟩ (by decide) rfl).1,
   ((guest_default_identity guestDB "Seaside" "d" " hello " 1 ⟨false, [], []⟩).2.2
     ⟨1, "Seaside", "d", "Guest", 0⟩ (by decide) rfl).2⟩

/-! How each route handler acts on the `cottages` table. -/

theorem add_comment_cottages (db : DB) (sess : Option String) (cid : Nat) (t : String) :
    (add_comment db sess cid t).cottages = db.cottages := by
  simp only [add_comment]
  split
  · rfl
  · rfl

theorem edit_comment_cottages (db : DB) (sess : Option String) (comment_id : Nat)
    (t : String) : (edit_comment db sess comment_id t).2.cottages = db.cottages := by
  simp only [edit_comment]
  split
  · rfl
  · split
    · rfl
    · split
      · rfl
      · rfl

theorem delete_comment_cottages (cfg : Config) (db : DB) (sess : Option String)
    (comment_id : Nat) : (delete_comment cfg db sess comment_id).2.cottages = db.cottages := by
  simp only [delete_comment]
  split
  · rfl
  · split
    · rfl
    · rfl

theorem rate_cottage_cottages (db : DB) (sess : Option String) (cid : Nat)
    (r : Option Int) (now : String) :
    (rate_cottage db sess cid r now).2.cottages = db.cottages := by
  simp only [rate_cottage]
  split
  · rfl
  · split
    · rfl
    · split
      · rfl
      · split
        · rfl
        · rfl

theorem delete_rating_cottages (db : DB) (sess : Option String) (cid : Nat) :
    (delete_rating db sess cid).2.cottages = db.cottages := by
  simp only [delete_rating]
  split
  · rfl
  · split
    · rfl
    · rfl

theorem add_cottage_cottages (db : DB) (sess : Option String) (nm ds : String) :
    (add_cottage db sess nm ds).cottages
      = db.cottages ++ [⟨db.nextCottageId, nm, ds, sessionUserOrGuest sess, 0⟩] := rfl

theorem edit_cottage_cottages (db : DB) (sess : Option String) (cid : Nat) (nm ds : String) :
    (edit_cottage db sess cid nm ds).2.cottages = db.cottages ∨
    (edit_cottage db sess cid nm ds).2.cottages
      = db.cottages.map (fun c =>
          if c.id = cid then { c with name := nm, description := ds } else c) := by
  simp only [edit_cottage]
  split
  · exact Or.inl rfl
  · split
    · exact Or.inl rfl
    · exact Or.inr rfl

theorem delete_cottage_cottages (cfg : Config) (db : DB) (sess : Option String) (cid : Nat) :
    (delete_cottage cfg db sess cid).2.cottages = db.cottages ∨
    (delete_cottage cfg db sess cid).2.cottages
      = db.cottages.filter (fun c => c.id ≠ cid) := by
  simp only [delete_cottage]
  split
  · exact Or.inl rfl
  · split
    · exact Or.inl rfl
    · exact Or.inr rfl

theorem vote_cottages (db : DB) (sess : Option String) (cid : Nat) (now : String) :
    (vote db sess cid now).2.cottages = db.cottages ∨
    (vote db sess cid now).2.cottages = updateVotesPlus1 db.cottages cid := by
  simp only [vote]
  split
  · exact Or.inl rfl
  · split
    · split
      · split
        · exact Or.inl rfl
        · exact Or.inl rfl
      · exact Or.inl rfl
    · split
      · exact Or.inr rfl
      · exact Or.inr rfl

theorem delete_vote_cottages (cfg : Config) (db : DB) (sess : Option String)
    (vote_id : Nat) :
    (delete_vote cfg db sess vote_id).2.cottages = db.cottages ∨
    ∃ cid : Nat, (delete_vote cfg db sess vote_id).2.cottages
      = updateVotesFloorDec db.cottages cid := by
  simp only [delete_vote]
  split
  · exact Or.inl rfl
  · split
    · exact Or.inl rfl
    · next row heq =>
      split
      · exact Or.inl rfl
      · exact Or.inr ⟨row.cottage_id, rfl⟩

/-! Preservation of counter nonnegativity. -/

theorem updateVotesPlus1_nonneg {cs : List Cottage} {cid : Nat}
    (h : ∀ c ∈ cs, 0 ≤ c.votes) : ∀ c ∈ updateVotesPlus1 cs cid, 0 ≤ c.votes := by
  intro c hc
  rcases List.mem_map.mp hc with ⟨c0, hc0, rfl⟩
  have h0 := h c0 hc0
  split
  · show 0 ≤ c0.votes + 1
    omega
  · exact h0

theorem updateVotesFloorDec_nonneg {cs : List Cottage} {cid : Nat}
    (h : ∀ c ∈ cs, 0 ≤ c.votes) : ∀ c ∈ updateVotesFloorDec cs cid, 0 ≤ c.votes := by
  intro c hc
  rcases List.mem_map.mp hc with ⟨c0, hc0, rfl⟩
  have h0 := h c0 hc0
  split
  · show 0 ≤ if c0.votes > 0 then c0.votes - 1 else 0
    split
    · omega
    · omega
  · exact h0

theorem countersNonneg_of_cottages_eq {db db' : DB} (h : db'.cottages = db.cottages)
    (hn : countersNonneg db) : countersNonneg db' := by
  intro c hc
  rw [h] at hc
  exact hn c hc

theorem countersNonneg_of_cottages_filter {db db' : DB} {p : Cottage → Bool}
    (h : db'.cottages = db.cottages.filter p) (hn : countersNonneg db) :
    countersNonneg db' := by
  intro c hc
  rw [h] at hc
  exact hn c (List.mem_of_mem_filter hc)

theorem step_preserves_countersNonneg {cfg : Config} {db db' : DB} (h : Step cfg db db')
    (hn : countersNonneg db) : countersNonneg db' := by
  cases h with
  | addCottage sess nm ds =>
    intro c hc
    rw [add_cottage_cottages] at hc
    rcases List.mem_append.mp hc with hmem | hmem
    · exact hn c hmem
    · rcases List.mem_singleton.mp hmem with rfl
      exact le_refl 0
  | editCottage sess cid nm ds =>
    rcases edit_cottage_cottages db sess cid nm ds with hvv | hvv
    · exact countersNonneg_of_cottages_eq hvv hn
    · intro c hc
      rw [hvv] at hc
      rcases List.mem_map.mp hc with ⟨c0, hc0, rfl⟩
      have h0 := hn c0 hc0
      split
      · exact h0
      · exact h0
  | deleteCottage sess cid =>
    rcases delete_cottage_cottages cfg db sess cid with hvv | hvv
    · exact countersNonneg_of_cottages_eq hvv hn
    · exact countersNonneg_of_cottages_filter hvv hn
  | addComment sess cid t =>
    exact countersNonneg_of_cottages_eq (add_comment_cottages db sess cid t) hn
  | editComment sess comment_id t =>
    exact countersNonneg_of_cottages_eq (edit_comment_cottages db sess comment_id t) hn
  | deleteComment sess comment_id =>
    exact countersNonneg_of_cottages_eq (delete_comment_cottages cfg db sess comment_id) hn
  | voteCast sess cid now =>
    rcases vote_cottages db sess cid now with hvv | hvv
    · exact countersNonneg_of_cottages_eq hvv hn
    · intro c hc
      rw [hvv] at hc
      exact updateVotesPlus1_nonneg hn c hc
  | voteDelete sess vote_id =>
    rcases delete_vote_cottages cfg db sess vote_id with hvv | ⟨cid, hvv⟩
    · exact countersNonneg_of_cottages_eq hvv hn
    · intro c hc
      rw [hvv] at hc
      exact updateVotesFloorDec_nonneg hn c hc
  | rateCast sess cid r now =>
    exact countersNonneg_of_cottages_eq (rate_cottage_cottages db sess cid r now) hn
  | rateDelete sess cid =>
    exact countersNonneg_of_cottages_eq (delete_rating_cottages db sess cid) hn

theorem reachable_countersNonneg {cfg : Config} {db : DB} (h : Reachable cfg db) :
    countersNonneg db := by
  induction h with
  | refl => intro c hc; simp [initDB] at hc
  | tail hsteps hstep ih => exact step_preserves_countersNonneg hstep ih

theorem is_admin_false_iff (cfg : Config) (sess : Option String) :
    is_admin cfg sess = false ↔ pynorm sess ∉ get_admins cfg := by
  simp [is_admin]

theorem updateVotesFloorDec_spec {cs : List Cottage} {c : Cottage} (cid : Nat)
    (hc : c ∈ cs) :
    (c.id = cid →
      ({ c with votes := max (c.votes - 1) 0 } : Cottage) ∈ updateVotesFloorDec cs cid) ∧
    (c.id ≠ cid → c ∈ updateVotesFloorDec cs cid) := by
  have hmem := List.mem_map_of_mem (fun c : Cottage =>
    if c.id = cid then { c with votes := if c.votes > 0 then c.votes - 1 else 0 } else c) hc
  dsimp only at hmem
  constructor
  · intro hid
    rw [if_pos hid] at hmem
    have hv : (if c.votes > 0 then c.votes - 1 else 0) = max (c.votes - 1) 0 := by
      split

      · rw [max_eq_left (by omega)]
      · rw [max_eq_right (by omega)]
    rw [hv] at hmem
    exact hmem
  · intro hid
    rw [if_neg hid] at hmem
    exact hmem

/-- A store with one cottage (counter 1) and one vote held by `alice`
(used by the C5 theorems). -/
def caseDB : DB :=
  ⟨[⟨1, "Cottage One", "d", "ann", 1⟩], [], [⟨1, 1, "alice", "t"⟩], [], 2, 1, 2⟩

/-- C5 counterexample: requester `ALICE` is not the vote's owner under
exact string comparison and is no admin, yet `delete_vote` does not fail
with Forbidden — the route compares ownership through the normalization
helper, so the case-variant requester deletes `alice`'s vote. -/
theorem delete_vote_exact_owner_counterexample :
    ("ALICE" : String) ≠ "alice" ∧
    is_admin ⟨false, [], []⟩ (some "ALICE") = false ∧
    (delete_vote ⟨false, [], []⟩ caseDB (some "ALICE") 1).1
      = DeleteVoteResult.ok 1 1 ∧
    (delete_vote ⟨false, [], []⟩ caseDB (some "ALICE") 1).2.votes = [] := by
  decide

/-- C5 (amended): for a logged-in requester, `delete_vote` fails with
NotFound exactly when no vote with the id exists; fails with Forbidden
exactly when the requester's normalized (stripped, case-folded) name
differs from the vote owner's normalized name and the requester is not an
admin; on success it returns the vote's cottage and id, deletes exactly
that Vote row, and replaces the owning cottage's counter by its value
decremented floored at zero (other cottages unchanged).  Moreover in every
reachable state no cottage counter is negative. -/
theorem delete_vote_contract :
    (∀ (cfg : Config) (db : DB) (sess : Option String) (vote_id : Nat),
      truthy sess = true →
        ((delete_vote cfg db sess vote_id).1 = DeleteVoteResult.vote_not_found ↔
          db.votes.find? (fun v => v.id = vote_id) = none) ∧
        (∀ v : Vote, db.votes.find? (fun v => v.id = vote_id) = some v →
          ((delete_vote cfg db sess vote_id).1 = DeleteVoteResult.not_permitted ↔
            (pynormS v.user_name ≠ pynorm sess ∧ pynorm sess ∉ get_admins cfg))) ∧
        (∀ v : Vote, db.votes.find? (fun v => v.id = vote_id) = some v →
          (pynormS v.user_name = pynorm sess ∨ pynorm sess ∈ get_admins cfg) →
            (delete_vote cfg db sess vote_id).1
                = DeleteVoteResult.ok v.cottage_id vote_id ∧
            (delete_vote cfg db sess vote_id).2.votes
                = db.votes.filter (fun w => w.id ≠ vote_id) ∧
            (∀ c ∈ db.cottages, c.id = v.cottage_id →
              ({ c with votes := max (c.votes - 1) 0 } : Cottage)
                ∈ (delete_vote cfg db sess vote_id).2.cottages) ∧
            (∀ c ∈ db.cottages, c.id ≠ v.cottage_id →
              c ∈ (delete_vote cfg db sess vote_id).2.cottages))) ∧
    (∀ (cfg : Config) (db : DB), Reachable cfg db → countersNonneg db) := by
  constructor
  · intro cfg db sess vote_id ht
    rcases hfind : db.votes.find? (fun v => v.id = vote_id) with _ | v
    · have hres : delete_vote cfg db sess vote_id = (.vote_not_found, db) := by
        simp [delete_vote, ht, hfind]
      refine ⟨by rw [hres]; exact ⟨fun _ => hfind, fun _ => rfl⟩, ?_, ?_⟩
      · intro v hv
        rw [hfind] at hv
        exact absurd hv (by simp)
      · intro v hv
        rw [hfind] at hv
        exact absurd hv (by simp)
    · by_cases hperm : pynormS v.user_name ≠ pynorm sess ∧ is_admin cfg sess = false
      · have hres : delete_vote cfg db sess vote_id = (.not_permitted, db) := by
          simp only [delete_vote, ht, hfind]
          rw [if_neg (by simp [ht]), if_pos hperm]
        refine ⟨by rw [hres]; simp [hfind], ?_, ?_⟩
        · intro w hw
          rw [hfind] at hw
          rcases Option.some.inj hw with rfl
          rw [hres]
          simp only [true_iff]
          exact ⟨hperm.1, (is_admin_false_iff cfg sess).mp hperm.2⟩
        · intro w hw hallow
          rw [hfind] at hw
          rcases Option.some.inj hw with rfl
          rcases hallow with hown | hadm
          · exact absurd hown hperm.1
          · have : is_admin cfg sess = true := by simpa [is_admin] using hadm
            rw [hperm.2] at this
            exact absurd this (by simp)
      · have hres : delete_vote cfg db sess vote_id
            = (.ok v.cottage_id vote_id,
               { db with
                 cottages := updateVotesFloorDec db.cottages v.cottage_id
                 votes := db.votes.filter (fun w => w.id ≠ vote_id) }) := by
          simp only [delete_vote, ht, hfind]
          rw [if_neg (by simp [ht]), if_neg hperm]
        refine ⟨by rw [hres]; simp [hfind], ?_, ?_⟩
        · intro w hw
          rw [hfind] at hw
          rcases Option.some.inj hw with rfl
          rw [hres]
          exact ⟨fun hcontra => DeleteVoteResult.noConfusion hcontra,
                 fun hcontra =>
                   absurd ⟨hcontra.1, (is_admin_false_iff cfg sess).mpr hcontra.2⟩ hperm⟩
        · intro w hw _
          rw [hfind] at hw
          rcases Option.some.inj hw with rfl
          rw [hres]
          refine ⟨rfl, rfl, ?_, ?_⟩
          · intro c hc hid
            exact (updateVotesFloorDec_spec v.cottage_id hc).1 hid
          · intro c hc hid
            exact (updateVotesFloorDec_spec v.cottage_id hc).2 hid
  · intro cfg db h
    exact reachable_countersNonneg h

/-- Witness for C5 at concrete inputs: the vote's owner deletes their own
vote on `caseDB` and gets the success outcome, and the initial database
has no negative counter. -/
theorem delete_vote_contract_witness :
    (delete_vote ⟨false, [], []⟩ caseDB (some "alice") 1).1
        = DeleteVoteResult.ok 1 1 ∧
    countersNonneg initDB :=
  ⟨((delete_vote_contract.1 ⟨false, [], []⟩ caseDB (some "alice") 1 (by decide)).2.2
      ⟨1, 1, "alice", "t"⟩ (by decide) (Or.inl (by decide))).1,
   delete_vote_contract.2 ⟨false, [], []⟩ initDB Relation.ReflTransGen.refl⟩

theorem admin_override_false_iff (cfg : Config) (u : String) :
    admin_override cfg u = false ↔
      ¬(cfg.allowAdminOverride = true ∧ u ∈ cfg.adminUsers) := by
  simp [admin_override]

/-- C4 counterexample: with the override flag enabled and the static list
`[admin]`, the user `Admin` is an admin under the normalized-union
discipline (`is_admin`), yet `delete_cottage` denies them: the cottage and
comment delete routes decide admin membership by exact, case-sensitive
membership in the static list alone, so the case-insensitive union
discipline is not applied uniformly. -/
theorem authorization_uniformity_counterexample :
    is_admin ⟨true, ["admin"], []⟩ (some "Admin") = true ∧
    (delete_cottage ⟨true, ["admin"], []⟩ caseDB (some "Admin") 1).1
      = DeleteCottageResult.not_authorized := by
  decide

/-- C4 (amended): the deny decisions of the five mutating routes are
characterized as follows.  Ownership is exact, case-sensitive string
equality for cottage edit, cottage delete, comment edit and comment delete
(against the `Guest`-defaulted session name), but normalized (stripped,
case-folded) comparison for vote delete.  The admin override for cottage
delete and comment delete is exact membership in the statically configured
list, gated by the override flag; vote delete instead uses normalized
membership in the union of the runtime and static lists. -/
theorem authorization_disciplines :
    ∀ (cfg : Config) (db : DB) (sess : Option String),
      (∀ (cid : Nat) (nm ds : String) (c : Cottage),
        db.cottages.find? (fun x => x.id = cid) = some c →
          ((edit_cottage db sess cid nm ds).1 = EditCottageResult.not_authorized ↔
            c.submitted_by ≠ sessionUserOrGuest sess)) ∧
      (∀ (cid : Nat) (c : Cottage),
        db.cottages.find? (fun x => x.id = cid) = some c →
          ((delete_cottage cfg db sess cid).1 = DeleteCottageResult.not_authorized ↔
            (c.submitted_by ≠ sessionUserOrGuest sess ∧
             ¬(cfg.allowAdminOverride = true ∧
               sessionUserOrGuest sess ∈ cfg.adminUsers)))) ∧
      (∀ (comment_id : Nat) (t : String) (cm : Comment),
        db.comments.find? (fun x => x.id = comment_id) = some cm →
          ((edit_comment db sess comment_id t).1 = CommentResult.not_authorized ↔
            cm.author ≠ sessionUserOrGuest sess)) ∧
      (∀ (comment_id : Nat) (cm : Comment),
        db.comments.find? (fun x => x.id = comment_id) = some cm →
          ((delete_comment cfg db sess comment_id).1 = CommentResult.not_authorized ↔
            (cm.author ≠ sessionUserOrGuest sess ∧
             ¬(cfg.allowAdminOverride = true ∧
               sessionUserOrGuest sess ∈ cfg.adminUsers)))) ∧
      (∀ (vote_id : Nat) (v : Vote),
        truthy sess = true →
        db.votes.find? (fun x => x.id = vote_id) = some v →
          ((delete_vote cfg db sess vote_id).1 = DeleteVoteResult.not_permitted ↔
            (pynormS v.user_name ≠ pynorm sess ∧
             pynorm sess ∉ get_admins cfg))) := by
  intro cfg db sess
  refine ⟨?_, ?_, ?_, ?_, ?_⟩
  · intro cid nm ds c hc
    simp only [edit_cottage, hc]
    split
    · next h => exact ⟨fun _ => h, fun _ => rfl⟩
    · next h =>
      exact ⟨fun hcontra => EditCottageResult.noConfusion hcontra,
             fun hne => absurd hne h⟩
  · intro cid c hc
    simp only [delete_cottage, hc]
    split
    · next h =>
      exact ⟨fun _ => ⟨h.1, (admin_override_false_iff cfg _).mp h.2⟩, fun _ => rfl⟩
    · next h =>
      refine ⟨fun hcontra => DeleteCottageResult.noConfusion hcontra, fun hcond => ?_⟩
      exact absurd ⟨hcond.1, (admin_override_false_iff cfg _).mpr hcond.2⟩ h
  · intro comment_id t cm hc
    simp only [edit_comment, hc]
    split
    · next h => exact ⟨fun _ => h, fun _ => rfl⟩
    · next h =>
      split
      · exact ⟨fun hcontra => CommentResult.noConfusion hcontra,
               fun hne => absurd hne h⟩
      · exact ⟨fun hcontra => CommentResult.noConfusion hcontra,
               fun hne => absurd hne h⟩
  · intro comment_id cm hc
    simp only [delete_comment, hc]
    split
    · next h =>
      exact ⟨fun _ => ⟨h.1, (admin_override_false_iff cfg _).mp h.2⟩, fun _ => rfl⟩
    · next h =>
      refine ⟨fun hcontra => CommentResult.noConfusion hcontra, fun hcond => ?_⟩
      exact absurd ⟨hcond.1, (admin_override_false_iff cfg _).mpr hcond.2⟩ h
  · intro vote_id v ht hv
    have hts : ¬ (truthy sess = false) := by simp [ht]
    simp only [delete_vote, hv]
    rw [if_neg hts]
    split
    · next h =>
      exact ⟨fun _ => ⟨h.1, (is_admin_false_iff cfg sess).mp h.2⟩, fun _ => rfl⟩
    · next h =>
      refine ⟨fun hcontra => DeleteVoteResult.noConfusion hcontra, fun hcond => ?_⟩
      exact absurd ⟨hcond.1, (is_admin_false_iff cfg sess).mpr hcond.2⟩ h

/-- Witness for C4 at concrete inputs: the normalized-union admin `Admin`
is denied the cottage delete on `caseDB` (exact, override-gated static
check), and the case-variant requester `ALICE` is not denied the deletion
of `alice`'s vote (normalized ownership check). -/
theorem authorization_disciplines_witness :
    ((delete_cottage ⟨true, ["admin"], []⟩ caseDB (some "Admin") 1).1
        = DeleteCottageResult.not_authorized) ∧
    ¬ ((delete_vote ⟨true, ["admin"], []⟩ caseDB (some "ALICE") 1).1
        = DeleteVoteResult.not_permitted) :=
  ⟨((authorization_disciplines ⟨true, ["admin"], []⟩ caseDB (some "Admin")).2.1 1
      ⟨1, "Cottage One", "d", "ann", 1⟩ (by decide)).mpr (by decide),
   fun hcontra =>
     (by decide :
       ¬ (pynormS "alice" ≠ pynorm (some "ALICE") ∧
          pynorm (some "ALICE") ∉ get_admins ⟨true, ["admin"], []⟩))
       (((authorization_disciplines ⟨true, ["admin"], []⟩ caseDB (some "ALICE")).2.2.2.2 1
           ⟨1, 1, "alice", "t"⟩ (by decide) (by decide)).mp hcontra)⟩

/-! How each route handler acts on the `ratings` table. -/

theorem add_cottage_ratings (db : DB) (sess : Option String) (nm ds : String) :
    (add_cottage db sess nm ds).ratings = db.ratings := rfl

theorem edit_cottage_ratings (db : DB) (sess : Option String) (cid : Nat) (nm ds : String) :
    (edit_cottage db sess cid nm ds).2.ratings = db.ratings := by
  simp only [edit_cottage]
  split
  · rfl
  · split
    · rfl
    · rfl

theorem delete_cottage_ratings (cfg : Config) (db : DB) (sess : Option String) (cid : Nat) :
    (delete_cottage cfg db sess cid).2.ratings = db.ratings := by
  simp only [delete_cottage]
  split
  · rfl
  · split
    · rfl
    · rfl

theorem add_comment_ratings (db : DB) (sess : Option String) (cid : Nat) (t : String) :
    (add_comment db sess cid t).ratings = db.ratings := by
  simp only [add_comment]
  split
  · rfl
  · rfl

theorem edit_comment_ratings (db : DB) (sess : Option String) (comment_id : Nat)
    (t : String) : (edit_comment db sess comment_id t).2.ratings = db.ratings := by
  simp only [edit_comment]
  split
  · rfl
  · split
    · rfl
    · split
      · rfl
      · rfl

theorem delete_comment_ratings (cfg : Config) (db : DB) (sess : Option String)
    (comment_id : Nat) : (delete_comment cfg db sess comment_id).2.ratings = db.ratings := by
  simp only [delete_comment]
  split
  · rfl
  · split
    · rfl
    · rfl

theorem vote_ratings (db : DB) (sess : Option String) (cid : Nat) (now : String) :
    (vote db sess cid now).2.ratings = db.ratings := by
  simp only [vote]
  split
  · rfl
  · split
    · split
      · split
        · rfl
        · rfl
      · rfl
    · split
      · rfl
      · rfl

theorem delete_vote_ratings (cfg : Config) (db : DB) (sess : Option String)
    (vote_id : Nat) : (delete_vote cfg db sess vote_id).2.ratings = db.ratings := by
  simp only [delete_vote]
  split
  · rfl
  · split
    · rfl
    · split
      · rfl
      · rfl

theorem rate_cottage_ratings (db : DB) (sess : Option String) (cid : Nat)
    (r : Option Int) (now : String) :
    (rate_cottage db sess cid r now).2.ratings = db.ratings ∨
    ∃ (u : String) (rv : Int),
      (rate_cottage db sess cid r now).2.ratings = upsertRating db.ratings cid u rv now := by
  simp only [rate_cottage]
  split
  · exact Or.inl rfl
  · split
    · exact Or.inl rfl
    · split
      · exact Or.inl rfl
      · split
        · exact Or.inl rfl
        · exact Or.inr ⟨sess.getD "", _, rfl⟩

theorem delete_rating_ratings (db : DB) (sess : Option String) (cid : Nat) :
    (delete_rating db sess cid).2.ratings = db.ratings ∨
    ∃ p : Rating → Bool, (delete_rating db sess cid).2.ratings = db.ratings.filter p := by
  simp only [delete_rating]
  split
  · exact Or.inl rfl
  · split
    · exact Or.inr ⟨_, rfl⟩
    · exact Or.inr ⟨_, rfl⟩

/-! Preservation of the one-rating-per-pair invariant. -/

theorem upsertRating_preserves_pairBound {rs : List Rating} {cid : Nat} {u : String}
    {rv : Int} {now : String}
    (h : ∀ (cid' : Nat) (u' : String),
      (rs.filter (fun r => r.cottage_id = cid' ∧ r.user_name = u')).length ≤ 1) :
    ∀ (cid' : Nat) (u' : String),
      ((upsertRating rs cid u rv now).filter
        (fun r => r.cottage_id = cid' ∧ r.user_name = u')).length ≤ 1 := by
  intro cid' u'
  simp only [upsertRating]
  split
  · next hany =>
    rw [List.filter_map]
    rw [List.length_map]
    have hpf : ∀ r ∈ rs,
        (decide (((if r.cottage_id = cid ∧ r.user_name = u then
            ({ r with rating := rv, rated_at := now } : Rating) else r).cottage_id = cid' ∧
          (if r.cottage_id = cid ∧ r.user_name = u then
            ({ r with rating := rv, rated_at := now } : Rating) else r).user_name = u')))
          = decide (r.cottage_id = cid' ∧ r.user_name = u') := by
      intro r _
      split
      · rfl
      · rfl
    simp only [Function.comp_def]
    rw [List.filter_congr hpf]
    exact h cid' u'
  · next hany =>
    rw [List.filter_append, List.length_append]
    by_cases hpair : cid' = cid ∧ u' = u
    · rcases hpair with ⟨rfl, rfl⟩
      have hnil : rs.filter (fun r => r.cottage_id = cid' ∧ r.user_name = u') = [] :=
        filter_eq_nil_of_any_eq_false (by simpa using hany)
      rw [hnil]
      simp [List.filter]
    · have hdec : (decide (cid = cid' ∧ u = u')) = false := by
        simp only [decide_eq_false_iff_not]
        intro hcontra
        exact hpair ⟨hcontra.1.symm, hcontra.2.symm⟩
      have hnil : ([(⟨cid, u, rv, now⟩ : Rating)].filter
          (fun r => r.cottage_id = cid' ∧ r.user_name = u')) = [] := by
        simp only [List.filter]
        rw [hdec]
      rw [hnil]
      simpa using h cid' u'

theorem oneRatingPerPair_of_ratings_eq {db db' : DB} (h : db'.ratings = db.ratings)
    (hr : oneRatingPerPair db) : oneRatingPerPair db' := by
  intro cid u
  rw [h]
  exact hr cid u

theorem step_preserves_oneRatingPerPair {cfg : Config} {db db' : DB} (h : Step cfg db db')
    (hr : oneRatingPerPair db) : oneRatingPerPair db' := by
  cases h with
  | addCottage sess nm ds =>
    exact oneRatingPerPair_of_ratings_eq (add_cottage_ratings db sess nm ds) hr
  | editCottage sess cid nm ds =>
    exact oneRatingPerPair_of_ratings_eq (edit_cottage_ratings db sess cid nm ds) hr
  | deleteCottage sess cid =>
    exact oneRatingPerPair_of_ratings_eq (delete_cottage_ratings cfg db sess cid) hr
  | addComment sess cid t =>
    exact oneRatingPerPair_of_ratings_eq (add_comment_ratings db sess cid t) hr
  | editComment sess comment_id t =>
    exact oneRatingPerPair_of_ratings_eq (edit_comment_ratings db sess comment_id t) hr
  | deleteComment sess comment_id =>
    exact oneRatingPerPair_of_ratings_eq (delete_comment_ratings cfg db sess comment_id) hr
  | voteCast sess cid now =>
    exact oneRatingPerPair_of_ratings_eq (vote_ratings db sess cid now) hr
  | voteDelete sess vote_id =>
    exact oneRatingPerPair_of_ratings_eq (delete_vote_ratings cfg db sess vote_id) hr
  | rateCast sess cid r now =>
    rcases rate_cottage_ratings db sess cid r now with hvv | ⟨u, rv, hvv⟩
    · exact oneRatingPerPair_of_ratings_eq hvv hr
    · intro cid' u'
      rw [hvv]
      exact upsertRating_preserves_pairBound hr cid' u'
  | rateDelete sess cid =>
    rcases delete_rating_ratings db sess cid with hvv | ⟨p, hvv⟩
    · exact oneRatingPerPair_of_ratings_eq hvv hr
    · intro cid' u'
      rw [hvv]
      exact le_trans (length_filter_filter_le db.ratings p _) (hr cid' u')

theorem reachable_oneRatingPerPair {cfg : Config} {db : DB} (h : Reachable cfg db) :
    oneRatingPerPair db := by
  induction h with
  | refl => intro cid u; simp [initDB]
  | tail hsteps hstep ih => exact step_preserves_oneRatingPerPair hstep ih

/-- C6: in every reachable state there is at most one Rating row per
`(cottage_id, user_name)` pair, and resubmission overwrites in place: a
user who rates cottage 1 as 7 and then resubmits 9 leaves exactly one
Rating row for the pair, with value 9, and the returned aggregate average
is 9.0. -/
theorem rating_uniqueness_upsert :
    (∀ (cfg : Config) (db : DB), Reachable cfg db → oneRatingPerPair db) ∧
    ((rate_cottage (rate_cottage (add_cottage initDB (some "ann") "Cottage One" "d")
        (some "A") 1 (some 7) "t1").2 (some "A") 1 (some 9) "t2").2.ratings
      = [⟨1, "A", 9, "t2"⟩] ∧
     (rate_cottage (rate_cottage (add_cottage initDB (some "ann") "Cottage One" "d")
        (some "A") 1 (some 7) "t1").2 (some "A") 1 (some 9) "t2").1
      = RateResult.ok 9 1 9 9) := by
  refine ⟨fun cfg db h => reachable_oneRatingPerPair h, by decide, ?_⟩
  simp [rate_cottage, add_cottage, initDB, truthy, upsertRating, ratingCount,
    ratingSum, ratingAvgStat, ratingAvgRaw, pyRound1, roundHalfEven, sessionUserOrGuest]
  norm_num

/-- Witness for C6: the invariant instantiated at the concrete reachable
state produced by adding a cottage and rating it. -/
theorem rating_uniqueness_upsert_witness :
    oneRatingPerPair (rate_cottage (add_cottage initDB (some "ann") "Cottage One" "d")
      (some "A") 1 (some 7) "t1").2 :=
  rating_uniqueness_upsert.1 ⟨false, [], []⟩ _
    (Relation.ReflTransGen.tail
      (Relation.ReflTransGen.tail Relation.ReflTransGen.refl
        (Step.addCottage initDB (some "ann") "Cottage One" "d"))
      (Step.rateCast (add_cottage initDB (some "ann") "Cottage One" "d")
        (some "A") 1 (some 7) "t1"))

/-- C7: the full rating-engine contract.  `rate_cottage` fails with
Unauthenticated when no identity is present, with InvalidRange when the
value is not an integer or outside 0..10, with NotFound when the cottage
does not exist (each failure leaving the store unchanged), and otherwise
upserts and returns the refreshed aggregate.  The upsert inserts when the
pair is absent and overwrites in place when present.  The aggregate
average is exactly 0 when the count is 0 and the rounded mean otherwise.
`delete_rating` fails with NotFound when the user has no rating on the
cottage (leaving the store unchanged) and otherwise deletes it and returns
the refreshed aggregate. -/
theorem rating_engine_contract :
    (∀ (db : DB) (sess : Option String) (cid : Nat) (r : Option Int) (now : String),
      (truthy sess = false → rate_cottage db sess cid r now = (.not_logged_in, db)) ∧
      (truthy sess = true → r = none →
        rate_cottage db sess cid r now = (.invalid_range, db)) ∧
      (∀ v : Int, truthy sess = true → r = some v → (v < 0 ∨ 10 < v) →
        rate_cottage db sess cid r now = (.invalid_range, db)) ∧
      (∀ v : Int, truthy sess = true → r = some v → ¬(v < 0 ∨ 10 < v) →
        db.cottages.find? (fun c => c.id = cid) = none →
        rate_cottage db sess cid r now = (.cottage_not_found, db)) ∧
      (∀ (v : Int) (c : Cottage), truthy sess = true → r = some v → ¬(v < 0 ∨ 10 < v) →
        db.cottages.find? (fun c => c.id = cid) = some c →
        rate_cottage db sess cid r now
          = (.ok v (ratingCount (upsertRating db.ratings cid (sess.getD "") v now) cid)
               (ratingAvgStat (upsertRating db.ratings cid (sess.getD "") v now) cid)
               (ratingSum (upsertRating db.ratings cid (sess.getD "") v now) cid),
             { db with ratings := upsertRating db.ratings cid (sess.getD "") v now }))) ∧
    (∀ (rs : List Rating) (cid : Nat) (u : String) (rv : Int) (now : String),
      ((¬ ∃ r ∈ rs, r.cottage_id = cid ∧ r.user_name = u) →
        upsertRating rs cid u rv now = rs ++ [⟨cid, u, rv, now⟩]) ∧
      ((∃ r ∈ rs, r.cottage_id = cid ∧ r.user_name = u) →
        (upsertRating rs cid u rv now).length = rs.length ∧
        upsertRating rs cid u rv now
          = rs.map (fun r => if r.cottage_id = cid ∧ r.user_name = u then
              { r with rating := rv, rated_at := now } else r))) ∧
    (∀ (rs : List Rating) (cid : Nat),
      (ratingCount rs cid = 0 → ratingAvgStat rs cid = 0) ∧
      (ratingCount rs cid ≠ 0 →
        ratingAvgStat rs cid
          = pyRound1 ((ratingSum rs cid : ℚ) / (ratingCount rs cid : ℚ)))) ∧
    (∀ (db : DB) (sess : Option String) (cid : Nat),
      truthy sess = true →
        ((¬ ∃ r ∈ db.ratings, r.cottage_id = cid ∧ r.user_name = sess.getD "") →
          delete_rating db sess cid = (.rating_not_found, db)) ∧
        ((∃ r ∈ db.ratings, r.cottage_id = cid ∧ r.user_name = sess.getD "") →
          delete_rating db sess cid
            = (.ok (ratingCount (db.ratings.filter
                    (fun r => ¬(r.cottage_id = cid ∧ r.user_name = sess.getD ""))) cid)
                 (ratingAvgStat (db.ratings.filter
                    (fun r => ¬(r.cottage_id = cid ∧ r.user_name = sess.getD ""))) cid)
                 (ratingSum (db.ratings.filter
                    (fun r => ¬(r.cottage_id = cid ∧ r.user_name = sess.getD ""))) cid),
               { db with ratings := (db.ratings.filter
                   (fun r => ¬(r.cottage_id = cid ∧ r.user_name = sess.getD ""))) }))) := by
  refine ⟨?_, ?_, ?_, ?_⟩
  · intro db sess cid r now
    refine ⟨?_, ?_, ?_, ?_, ?_⟩
    · intro h
      simp [rate_cottage, h]
    · intro ht hr
      subst hr
      simp [rate_cottage, ht]
    · intro v ht hr hrange
      subst hr
      simp [rate_cottage, ht, hrange]
    · intro v ht hr hrange hfind
      subst hr
      simp [rate_cottage, ht, hrange, hfind]
    · intro v c ht hr hrange hfind
      subst hr
      simp [rate_cottage, ht, hrange, hfind]
  · intro rs cid u rv now
    constructor
    · intro hno
      have hany : rs.any (fun r => r.cottage_id = cid ∧ r.user_name = u) = false := by
        rw [List.any_eq_false]
        intro x hx
        simp only [decide_eq_true_eq]
        intro hcontra
        exact hno ⟨x, hx, hcontra⟩
      simp only [upsertRating]
      rw [if_neg (by rw [hany]; exact Bool.false_ne_true)]
    · intro hyes
      have hany : rs.any (fun r => r.cottage_id = cid ∧ r.user_name = u) = true := by
        rw [List.any_eq_true]
        rcases hyes with ⟨x, hx, hcontra⟩
        exact ⟨x, hx, by simpa using hcontra⟩
      constructor
      · simp only [upsertRating]
        rw [if_pos hany]
        exact List.length_map rs _
      · simp only [upsertRating]
        rw [if_pos hany]
  · intro rs cid
    constructor
    · intro h0
      simp [ratingAvgStat, ratingAvgRaw, h0]
    · intro hne
      simp only [ratingAvgStat, ratingAvgRaw]
      rw [if_neg hne]
      show (if ((ratingSum rs cid : ℚ) / (ratingCount rs cid : ℚ)) = 0 then 0
            else pyRound1 ((ratingSum rs cid : ℚ) / (ratingCount rs cid : ℚ)))
          = pyRound1 ((ratingSum rs cid : ℚ) / (ratingCount rs cid : ℚ))
      split
      · next ha =>
        rw [ha]
        norm_num [pyRound1, roundHalfEven, Int.floor_zero]
      · rfl
  · intro db sess cid ht
    constructor
    · intro hno
      have hfilter0 : (db.ratings.filter
          (fun r => r.cottage_id = cid ∧ r.user_name = sess.getD "")).length = 0 := by
        rw [List.length_eq_zero, List.filter_eq_nil_iff]
        intro x hx
        simp only [decide_eq_true_eq]
        intro hcontra
        exact hno ⟨x, hx, hcontra⟩
      have hkeep : db.ratings.filter
          (fun r => ¬(r.cottage_id = cid ∧ r.user_name = sess.getD "")) = db.ratings := by
        rw [List.filter_eq_self]
        intro x hx
        simp only [decide_eq_true_eq]
        intro hcontra
        exact hno ⟨x, hx, hcontra⟩
      simp only [delete_rating]
      rw [if_neg (by simp [ht]), hkeep, if_pos hfilter0]
    · intro hyes
      have hfilterpos : (db.ratings.filter
          (fun r => r.cottage_id = cid ∧ r.user_name = sess.getD "")).length ≠ 0 := by
        rcases hyes with ⟨x, hx, hcontra⟩
        have hmem : x ∈ db.ratings.filter
            (fun r => r.cottage_id = cid ∧ r.user_name = sess.getD "") :=
          List.mem_filter.mpr ⟨hx, by simpa using hcontra⟩
        intro h0
        rw [List.length_eq_zero] at h0
        rw [h0] at hmem
        exact absurd hmem (List.not_mem_nil x)
      simp only [delete_rating]
      rw [if_neg (by simp [ht]), if_neg hfilterpos]

/-- Witness for C7 at concrete inputs: an unauthenticated rating attempt
fails without touching the store, and deleting a nonexistent rating on
`caseDB` reports NotFound and leaves the store unchanged. -/
theorem rating_engine_contract_witness :
    rate_cottage initDB none 1 (some 5) "t" = (RateResult.not_logged_in, initDB) ∧
    delete_rating caseDB (some "ann") 1
      = (DeleteRatingResult.rating_not_found, caseDB) :=
  ⟨(rating_engine_contract.1 initDB none 1 (some 5) "t").1 rfl,
   (rating_engine_contract.2.2.2 caseDB (some "ann") 1 (by decide)).1 (by decide)⟩

/-- C2 (code evaluated at the failing input): casting a vote for the
nonexistent cottage id 2 is not rejected with NotFound — the route has no
existence check, so it commits a dangling Vote row (the votes table is
modified) and then fails with an unhandled error when re-reading the
counter of the missing cottage. -/
theorem cast_vote_missing_cottage_bug :
    (vote (add_cottage initDB (some "ann") "Cottage One" "d") (some "bob") 2
        "2026-01-02 10:00:00").1 = VoteResult.server_error ∧
    (vote (add_cottage initDB (some "ann") "Cottage One" "d") (some "bob") 2
        "2026-01-02 10:00:00").2.votes
      = [⟨1, 2, "bob", "2026-01-02 10:00:00"⟩] := by
  decide

/-- The store reached by: add cottage 1; `bob` votes for the nonexistent
id 2 (a dangling Vote row is committed); add a second cottage, which
receives id 2; `dave` votes for cottage 1 (used by the C3 theorem). -/
def desyncDB : DB :=
  (vote (add_cottage (vote (add_cottage initDB (some "ann") "Cottage One" "d")
      (some "bob") 2 "t1").2 (some "carol") "Cottage Two" "d2")
    (some "dave") 1 "t2").2

/-- C3 (code evaluated at the failing input): `desyncDB` is reachable
through committed mutations whose last step is a committed vote cast, yet
the counter-sync property fails there: cottage 2 exists with counter 0
while exactly one Vote row references it (the dangling row committed when
`bob` voted for the then-nonexistent id 2). -/
theorem counter_sync_violation_reachable :
    Reachable ⟨false, [], []⟩ desyncDB ∧
    ¬ counterSync desyncDB ∧
    ∃ c ∈ desyncDB.cottages, c.id = 2 ∧ c.votes = 0 ∧ voteRowCount desyncDB 2 = 1 := by
  refine ⟨?_, ?_, by decide⟩
  case refine_2 =>
    intro hsync
    have h2 : (⟨2, "Cottage Two", "d2", "carol", 0⟩ : Cottage) ∈ desyncDB.cottages := by
      decide
    exact absurd (hsync _ h2) (by decide)
  exact Relation.ReflTransGen.tail
    (Relation.ReflTransGen.tail
      (Relation.ReflTransGen.tail
        (Relation.ReflTransGen.tail Relation.ReflTransGen.refl
          (Step.addCottage initDB (some "ann") "Cottage One" "d"))
        (Step.voteCast (add_cottage initDB (some "ann") "Cottage One" "d")
          (some "bob") 2 "t1"))
      (Step.addCottage (vote (add_cottage initDB (some "ann") "Cottage One" "d")
          (some "bob") 2 "t1").2 (some "carol") "Cottage Two" "d2"))
    (Step.voteCast (add_cottage (vote (add_cottage initDB (some "ann") "Cottage One" "d")
        (some "bob") 2 "t1").2 (some "carol") "Cottage Two" "d2")
      (some "dave") 1 "t2")

end CottageChooser
